import Mathlib

/-!
Verification of the FreshKart daily sales consolidation pipeline
(`src/pipeline.py`) against its natural-language specification.

The pipeline's dataframes are embedded as Lean lists of records:
pandas `query`/`filter` becomes `List.filter`, `merge` becomes a
`flatMap` over matching rows, `groupby/agg` becomes a map over the
first-occurrence key list with per-key folds, and `drop_duplicates`
becomes a first-wins scan.  Monetary columns are modelled with `Rat`
(exact decimal arithmetic), quantities with `Int`, identifiers and
timestamps with `String`.
-/

namespace FreshKart

/-- A row of `customers.csv` (`df_customers`). -/
structure Customer where
  customer_id : String
  city : String
  is_active : Bool
deriving DecidableEq

/-- A nested line item inside an order record of `orders_{date}.json`. -/
structure ItemLine where
  qty : Int
  unit_price : Rat
deriving DecidableEq

/-- A raw order record from `orders_{date}.json`, with its nested items. -/
structure OrderRec where
  order_id : String
  customer_id : String
  channel : String
  created_at : String
  payment_status : String
  items : List ItemLine
deriving DecidableEq

/-- A row of `df_orders` (order-level fields only). -/
structure Order where
  order_id : String
  customer_id : String
  channel : String
  created_at : String
  payment_status : String
deriving DecidableEq

/-- A row of `df_items`: one line item with the order-level meta columns
copied onto it by `pd.json_normalize`. -/
structure Item where
  qty : Int
  unit_price : Rat
  order_id : String
  customer_id : String
  channel : String
  created_at : String
  payment_status : String
deriving DecidableEq

/-- A row of `refunds.csv` (`df_refunds`). -/
structure Refund where
  order_id : String
  amount : Rat
deriving DecidableEq

/-- `df_orders = pd.DataFrame(data)`: the order-level columns of each record. -/
def make_orders (data : List OrderRec) : List Order :=
  data.map (fun o => ⟨o.order_id, o.customer_id, o.channel, o.created_at, o.payment_status⟩)

/-- `df_items = pd.json_normalize(data, record_path="items", meta=[...])`:
one row per line item, order-level fields copied onto each row. -/
def make_items (data : List OrderRec) : List Item :=
  data.flatMap (fun o => o.items.map (fun it =>
    ⟨it.qty, it.unit_price, o.order_id, o.customer_id, o.channel, o.created_at,
     o.payment_status⟩))

/-- `df_customers.query("is_active == True")` (pipeline.py line 68). -/
def filterActiveCustomers (cs : List Customer) : List Customer :=
  cs.filter (fun c => c.is_active)

/-- `df_orders.query("payment_status == 'paid'")` (pipeline.py line 70). -/
def filterPaidOrders (os : List Order) : List Order :=
  os.filter (fun o => o.payment_status = "paid")

/-- `df_items.query("payment_status == 'paid'")` (pipeline.py line 72). -/
def filterPaidItems (its : List Item) : List Item :=
  its.filter (fun i => i.payment_status = "paid")

/-- First-wins scan used to model `drop_duplicates(keep="first")` and the
first-occurrence key list of a `groupby`: keeps each element whose key
`f a` has not been seen yet, in input order. -/
def firstByKey {α β : Type} [DecidableEq β] (f : α → β) : List β → List α → List α
  | _, [] => []
  | seen, a :: rest =>
    if f a ∈ seen then firstByKey f seen rest
    else a :: firstByKey f (f a :: seen) rest

/-- `df_orders.drop_duplicates(subset="order_id", keep="first")`
(pipeline.py line 75). -/
def dedupOrders (l : List Order) : List Order :=
  firstByKey (fun o => o.order_id) [] l

/-- The distinct values of a column in first-appearance order
(the key set of a `groupby`, or `.unique()`). -/
def uniqueKeys {β : Type} [DecidableEq β] (l : List β) : List β :=
  firstByKey (fun x => x) [] l

/-- `query("unit_price >= 0")` / `query("unit_price < 0")`
(pipeline.py lines 78-79): the valid and rejected item partitions. -/
def splitItemsByPrice (its : List Item) : List Item × List Item :=
  (its.filter (fun i => 0 ≤ i.unit_price), its.filter (fun i => i.unit_price < 0))

/-- `clean_data` (pipeline.py lines 45-92): active customers, paid
deduplicated orders, paid non-negative-price items. -/
def clean_data (customers : List Customer) (orders : List Order) (items : List Item) :
    List Customer × List Order × List Item :=
  (filterActiveCustomers customers,
   dedupOrders (filterPaidOrders orders),
   (splitItemsByPrice (filterPaidItems items)).1)

/-- The rejected-items side output of `clean_data`
(written to `rejected_items_{date}.csv`, pipeline.py lines 79-88). -/
def rejectedItems (items : List Item) : List Item :=
  (splitItemsByPrice (filterPaidItems items)).2

/-- A row of `df_items_full`: an item enriched with the customer city and
`line_total = qty * unit_price` (pipeline.py lines 117-121). -/
structure EnrichedItem where
  qty : Int
  unit_price : Rat
  order_id : String
  customer_id : String
  channel : String
  created_at : String
  payment_status : String
  city : String
  line_total : Rat
deriving DecidableEq

/-- One item row after the customer merge and the `line_total` assignment. -/
def enrichItem (i : Item) (city : String) : EnrichedItem :=
  ⟨i.qty, i.unit_price, i.order_id, i.customer_id, i.channel, i.created_at,
   i.payment_status, city, i.qty * i.unit_price⟩

/-- `df_items_clean.merge(df_customers[["customer_id", "city"]], on="customer_id",
how="inner").assign(line_total=...)` (pipeline.py lines 117-121): inner join,
one output row per matching (item, customer) pair, left order preserved. -/
def itemsFull (items : List Item) (customers : List Customer) : List EnrichedItem :=
  items.flatMap (fun i =>
    (customers.filter (fun c => c.customer_id = i.customer_id)).map
      (fun c => enrichItem i c.city))

/-- A row of the per-order aggregation of `df_items_full`
(pipeline.py lines 124-137), before refunds are attached. -/
structure OrderRev1 where
  order_id : String
  gross_revenue : Rat
  customer_id : String
  channel : String
  city : String
  created_at : String
deriving DecidableEq

/-- The pandas `"first"` aggregator on a string column of a group. -/
def firstStr (f : EnrichedItem → String) : List EnrichedItem → String
  | [] => ""
  | e :: _ => f e

/-- `df_items_full.groupby("order_id").agg({line_total: sum, customer_id: first,
channel: first, city: first, created_at: first})` (pipeline.py lines 124-137). -/
def orderRevenue1 (full : List EnrichedItem) : List OrderRev1 :=
  (uniqueKeys (full.map (fun e => e.order_id))).map (fun oid =>
    let g := full.filter (fun e => e.order_id = oid)
    ⟨oid, (g.map (fun e => e.line_total)).sum,
     firstStr (fun e => e.customer_id) g, firstStr (fun e => e.channel) g,
     firstStr (fun e => e.city) g, firstStr (fun e => e.created_at) g⟩)

/-- A row of `df_refunds_agg` (pipeline.py lines 141-147). -/
structure RefundAgg where
  order_id : String
  refunds_amount : Rat
deriving DecidableEq

/-- `df_refunds.query("order_id.isin(@valid_orders)").groupby("order_id")
.agg({amount: sum})` (pipeline.py lines 140-147). -/
def refundsAgg (refunds : List Refund) (valid_orders : List String) : List RefundAgg :=
  let restricted := refunds.filter (fun r => r.order_id ∈ valid_orders)
  (uniqueKeys (restricted.map (fun r => r.order_id))).map (fun oid =>
    ⟨oid, ((restricted.filter (fun r => r.order_id = oid)).map (fun r => r.amount)).sum⟩)

/-- A row of `df_order_revenue` after the final join and assignments
(pipeline.py lines 150-155). -/
structure OrderRevenue where
  order_id : String
  gross_revenue : Rat
  customer_id : String
  channel : String
  city : String
  created_at : String
  refunds_amount : Rat
  net_revenue : Rat
deriving DecidableEq

/-- The left merge with `df_refunds_agg` plus
`refunds_amount = refunds_amount.fillna(0)` and
`net_revenue = gross_revenue + refunds_amount` (pipeline.py lines 150-155).
`order_id` is unique in `df_refunds_agg`, so the left merge keeps one row
per left row and `find?` models it exactly. -/
def attachRefunds (rev : List OrderRev1) (ragg : List RefundAgg) : List OrderRevenue :=
  rev.map (fun o =>
    let ra := ((ragg.find? (fun x => x.order_id = o.order_id)).map
      (fun x => x.refunds_amount)).getD 0
    ⟨o.order_id, o.gross_revenue, o.customer_id, o.channel, o.city, o.created_at,
     ra, o.gross_revenue + ra⟩)

/-- `enrich_and_calculate` (pipeline.py lines 95-157): returns
`(df_items_full, df_order_revenue)`. -/
def enrich_and_calculate (items_clean : List Item) (customers : List Customer)
    (refunds : List Refund) : List EnrichedItem × List OrderRevenue :=
  let full := itemsFull items_clean customers
  let rev1 := orderRevenue1 full
  let valid_orders := uniqueKeys (rev1.map (fun o => o.order_id))
  (full, attachRefunds rev1 (refundsAgg refunds valid_orders))

/-- `pd.to_datetime(created_at).dt.date` (pipeline.py lines 177-179), for
ISO-8601 timestamps `YYYY-MM-DDTHH:MM:SS`: the calendar-date part. -/
def dateOf (s : String) : String := s.take 10

/-- A row of `df_items_count` (pipeline.py lines 181-186). -/
structure ItemsCount where
  order_id : String
  items_sold : Int
deriving DecidableEq

/-- `df_items_full.groupby("order_id").qty.sum()` (pipeline.py lines 181-186). -/
def itemsCount (full : List EnrichedItem) : List ItemsCount :=
  (uniqueKeys (full.map (fun e => e.order_id))).map (fun oid =>
    ⟨oid, ((full.filter (fun e => e.order_id = oid)).map (fun e => e.qty)).sum⟩)

/-- A row of `df_order_revenue` after `aggregate_daily` added `date` and
left-joined `items_sold` (pipeline.py lines 177-190); `none` models the
null an unmatched left join would leave. -/
structure OrderRevenueFull where
  order_id : String
  gross_revenue : Rat
  customer_id : String
  channel : String
  city : String
  created_at : String
  refunds_amount : Rat
  net_revenue : Rat
  date : String
  items_sold : Option Int
deriving DecidableEq

/-- The `date` assignment and the left merge with `df_items_count`
(pipeline.py lines 177-190); `order_id` is unique in `df_items_count`,
so `find?` models the left merge exactly. -/
def withDateAndCount (rev : List OrderRevenue) (full : List EnrichedItem) :
    List OrderRevenueFull :=
  let counts := itemsCount full
  rev.map (fun o =>
    ⟨o.order_id, o.gross_revenue, o.customer_id, o.channel, o.city, o.created_at,
     o.refunds_amount, o.net_revenue, dateOf o.created_at,
     (counts.find? (fun x => x.order_id = o.order_id)).map (fun x => x.items_sold)⟩)

/-- A row of `df_daily_summary` (pipeline.py lines 192-214). -/
structure DailySummary where
  date : String
  city : String
  channel : String
  orders_count : Nat
  unique_customers : Nat
  items_sold : Int
  gross_revenue_eur : Rat
  refunds_eur : Rat
  net_revenue_eur : Rat
deriving DecidableEq

/-- `df_order_revenue.groupby(["date", "city", "channel"]).agg({order_id: count,
customer_id: nunique, items_sold: sum, gross_revenue: sum, refunds_amount: sum,
net_revenue: sum})` (pipeline.py lines 192-214); pandas `sum` skips nulls, so
a null `items_sold` contributes 0. -/
def dailySummary (rev : List OrderRevenueFull) : List DailySummary :=
  (uniqueKeys (rev.map (fun o => (o.date, o.city, o.channel)))).map (fun k =>
    let g := rev.filter (fun o => (o.date, o.city, o.channel) = k)
    ⟨k.1, k.2.1, k.2.2, g.length,
     (uniqueKeys (g.map (fun o => o.customer_id))).length,
     (g.map (fun o => o.items_sold.getD 0)).sum,
     (g.map (fun o => o.gross_revenue)).sum,
     (g.map (fun o => o.refunds_amount)).sum,
     (g.map (fun o => o.net_revenue)).sum⟩)

/-- `aggregate_daily` (pipeline.py lines 160-216): returns
`(df_daily_summary, df_order_revenue)` with date and items_sold attached. -/
def aggregate_daily (rev : List OrderRevenue) (full : List EnrichedItem) :
    List DailySummary × List OrderRevenueFull :=
  let revFull := withDateAndCount rev full
  (dailySummary revFull, revFull)

/-- The composed pipeline `main` (pipeline.py lines 254-284) from loaded raw
records to the two exported collections. -/
def pipeline (data : List OrderRec) (customers : List Customer)
    (refunds : List Refund) : List DailySummary × List OrderRevenueFull :=
  let cleaned := clean_data customers (make_orders data) (make_items data)
  let enriched := enrich_and_calculate cleaned.2.2 cleaned.1 refunds
  aggregate_daily enriched.2 enriched.1

/-! ### Helper lemmas about the first-wins scan -/

theorem firstByKey_sublist {α β : Type} [DecidableEq β] (f : α → β) (seen : List β)
    (l : List α) : (firstByKey f seen l).Sublist l := by
  induction l generalizing seen with
  | nil => simp [firstByKey]
  | cons a rest ih =>
    simp only [firstByKey]
    split
    · exact (ih seen).trans (List.sublist_cons_self a rest)
    · exact (ih _).cons₂ a

theorem mem_map_firstByKey {α β : Type} [DecidableEq β] (f : α → β) (seen : List β)
    (l : List α) (x : β) :
    x ∈ (firstByKey f seen l).map f ↔ x ∈ l.map f ∧ x ∉ seen := by
  induction l generalizing seen with
  | nil => simp [firstByKey]
  | cons a rest ih =>
    simp only [firstByKey]
    split
    · rename_i h
      rw [ih]
      simp only [List.map_cons, List.mem_cons]
      constructor
      · exact fun hx => ⟨Or.inr hx.1, hx.2⟩
      · rintro ⟨h1 | h1, h2⟩
        · exact absurd (h1 ▸ h) h2
        · exact ⟨h1, h2⟩
    · rename_i h
      simp only [List.map_cons, List.mem_cons, ih, List.mem_cons]
      constructor
      · rintro (h1 | ⟨h1, h2⟩)
        · exact ⟨Or.inl h1, h1 ▸ h⟩
        · exact ⟨Or.inr h1, fun hx => h2 (Or.inr hx)⟩
      · rintro ⟨h1 | h1, h2⟩
        · exact Or.inl h1
        · by_cases hx : x = f a
          · exact Or.inl hx
          · exact Or.inr ⟨h1, fun hc => h2 (hc.resolve_left hx)⟩

theorem nodup_map_firstByKey {α β : Type} [DecidableEq β] (f : α → β) (seen : List β)
    (l : List α) : ((firstByKey f seen l).map f).Nodup := by
  induction l generalizing seen with
  | nil => simp [firstByKey]
  | cons a rest ih =>
    simp only [firstByKey]
    split
    · exact ih seen
    · simp only [List.map_cons, List.nodup_cons]
      refine ⟨fun hmem => ?_, ih _⟩
      exact ((mem_map_firstByKey f _ rest (f a)).mp hmem).2 (List.mem_cons_self _ _)

theorem firstByKey_eq_self {α β : Type} [DecidableEq β] (f : α → β) (seen : List β)
    (l : List α) (h : (l.map f).Nodup) (hs : ∀ a ∈ l, f a ∉ seen) :
    firstByKey f seen l = l := by
  induction l generalizing seen with
  | nil => rfl
  | cons a rest ih =>
    simp only [List.map_cons, List.nodup_cons] at h
    rw [firstByKey, if_neg (hs a (List.mem_cons_self a rest))]
    congr 1
    refine ih _ h.2 (fun b hb => ?_)
    intro hc
    rcases List.mem_cons.mp hc with hc1 | hc2
    · exact h.1 (hc1 ▸ List.mem_map_of_mem f hb)
    · exact hs b (List.mem_cons_of_mem a hb) hc2

theorem filter_firstByKey {α β : Type} [DecidableEq β] (f : α → β) (seen : List β)
    (l : List α) (k : β) :
    (firstByKey f seen l).filter (fun a => f a = k) =
      if k ∈ seen then [] else (l.filter (fun a => f a = k)).take 1 := by
  induction l generalizing seen with
  | nil => simp [firstByKey]
  | cons a rest ih =>
    simp only [firstByKey]
    split
    · rename_i h
      rw [ih]
      by_cases hk : k ∈ seen
      · simp [hk]
      · have hak : ¬ (f a = k) := fun hc => hk (hc ▸ h)
        simp [hk, List.filter_cons, hak]
    · rename_i h
      by_cases hak : f a = k
      · have hk : k ∉ seen := fun hc => h (hak ▸ hc)
        rw [List.filter_cons_of_pos (by simp [hak]), ih]
        have hmem : k ∈ f a :: seen := hak ▸ List.mem_cons_self (f a) seen
        simp [hk, hmem, List.filter_cons, hak]
      · rw [List.filter_cons_of_neg (by simp [hak]), ih]
        by_cases hk : k ∈ seen
        · simp [hk]
        · have hnk : ¬ k = f a := fun hc => hak hc.symm
          have hmem : ¬ k ∈ f a :: seen := by
            simp [List.mem_cons, hk, hnk]
          simp [hmem, hk, List.filter_cons, hak]

theorem mem_uniqueKeys {β : Type} [DecidableEq β] (l : List β) (x : β) :
    x ∈ uniqueKeys l ↔ x ∈ l := by
  have h := mem_map_firstByKey (fun y => y) [] l x
  simpa [uniqueKeys, List.map_id'] using h

theorem nodup_uniqueKeys {β : Type} [DecidableEq β] (l : List β) :
    (uniqueKeys l).Nodup := by
  have h := nodup_map_firstByKey (fun y => y) [] l
  simpa [List.map_id'] using h

theorem length_uniqueKeys_le {β : Type} [DecidableEq β] (l : List β) :
    (uniqueKeys l).length ≤ l.length :=
  (firstByKey_sublist (fun y => y) [] l).length_le

/-! ### Membership lemmas for the pipeline stages -/

/-- The enriched items output of the pipeline, as a standalone definition:
`itemsFull` applied to the cleaned items and cleaned customers. -/
def pipelineFull (data : List OrderRec) (customers : List Customer) :
    List EnrichedItem :=
  itemsFull (clean_data customers (make_orders data) (make_items data)).2.2
    (clean_data customers (make_orders data) (make_items data)).1

theorem mem_itemsFull (items : List Item) (customers : List Customer)
    (e : EnrichedItem) (h : e ∈ itemsFull items customers) :
    ∃ i ∈ items, ∃ c ∈ customers, c.customer_id = i.customer_id ∧
      e = enrichItem i c.city := by
  simp only [itemsFull, List.mem_flatMap, List.mem_map, List.mem_filter] at h
  obtain ⟨i, hi, c, ⟨hc, hcid⟩, rfl⟩ := h
  exact ⟨i, hi, c, hc, by simpa using hcid, rfl⟩

theorem line_total_itemsFull (items : List Item) (customers : List Customer)
    (e : EnrichedItem) (h : e ∈ itemsFull items customers) :
    e.line_total = e.qty * e.unit_price := by
  obtain ⟨i, _, c, _, _, rfl⟩ := mem_itemsFull items customers e h
  rfl

theorem mem_orderRevenue1 (full : List EnrichedItem) (o1 : OrderRev1)
    (h : o1 ∈ orderRevenue1 full) :
    o1.order_id ∈ uniqueKeys (full.map (fun e => e.order_id)) ∧
    o1.gross_revenue = ((full.filter (fun e => e.order_id = o1.order_id)).map
      (fun e => e.line_total)).sum := by
  simp only [orderRevenue1, List.mem_map] at h
  obtain ⟨oid, hoid, rfl⟩ := h
  exact ⟨hoid, rfl⟩

theorem customer_mem_orderRevenue1 (full : List EnrichedItem) (o1 : OrderRev1)
    (h : o1 ∈ orderRevenue1 full) :
    ∃ e ∈ full, e.order_id = o1.order_id ∧ e.customer_id = o1.customer_id := by
  simp only [orderRevenue1, List.mem_map] at h
  obtain ⟨oid, hoid, rfl⟩ := h
  rw [mem_uniqueKeys] at hoid
  obtain ⟨e0, he0, hid0⟩ := List.mem_map.mp hoid
  cases hg : full.filter (fun e => e.order_id = oid) with
  | nil =>
    have hcontra : e0 ∈ full.filter (fun e => e.order_id = oid) :=
      List.mem_filter.mpr ⟨he0, by simp [hid0]⟩
    rw [hg] at hcontra
    simp at hcontra
  | cons e rest =>
    have hmem : e ∈ full.filter (fun x => x.order_id = oid) := by
      rw [hg]; exact List.mem_cons_self e rest
    have he := List.mem_filter.mp hmem
    refine ⟨e, he.1, by simpa using he.2, ?_⟩
    simp [hg, firstStr]

theorem mem_attachRefunds (rev : List OrderRev1) (ragg : List RefundAgg)
    (o : OrderRevenue) (h : o ∈ attachRefunds rev ragg) :
    ∃ o1 ∈ rev, o.order_id = o1.order_id ∧ o.customer_id = o1.customer_id ∧
      o.gross_revenue = o1.gross_revenue ∧
      o.refunds_amount = ((ragg.find? (fun x => x.order_id = o1.order_id)).map
        (fun x => x.refunds_amount)).getD 0 ∧
      o.net_revenue = o.gross_revenue + o.refunds_amount := by
  simp only [attachRefunds, List.mem_map] at h
  obtain ⟨o1, ho1, rfl⟩ := h
  exact ⟨o1, ho1, rfl, rfl, rfl, rfl, rfl⟩

theorem mem_withDateAndCount (rev : List OrderRevenue) (full : List EnrichedItem)
    (o : OrderRevenueFull) (h : o ∈ withDateAndCount rev full) :
    ∃ o2 ∈ rev, o.order_id = o2.order_id ∧ o.customer_id = o2.customer_id ∧
      o.items_sold = ((itemsCount full).find? (fun x => x.order_id = o2.order_id)).map
        (fun x => x.items_sold) := by
  simp only [withDateAndCount, List.mem_map] at h
  obtain ⟨o2, ho2, rfl⟩ := h
  exact ⟨o2, ho2, rfl, rfl, rfl⟩

theorem mem_refundsAgg (refunds : List Refund) (valid_orders : List String)
    (x : RefundAgg) (h : x ∈ refundsAgg refunds valid_orders) :
    ∃ r ∈ refunds, r.order_id = x.order_id := by
  simp only [refundsAgg, List.mem_map] at h
  obtain ⟨oid, hoid, rfl⟩ := h
  rw [mem_uniqueKeys] at hoid
  obtain ⟨r, hr, hrid⟩ := List.mem_map.mp hoid
  exact ⟨r, (List.mem_filter.mp hr).1, hrid⟩

theorem mem_make_items (data : List OrderRec) (i : Item) (h : i ∈ make_items data) :
    ∃ o ∈ data, i.order_id = o.order_id ∧ i.payment_status = o.payment_status := by
  simp only [make_items, List.mem_flatMap, List.mem_map] at h
  obtain ⟨o, ho, it, hit, rfl⟩ := h
  exact ⟨o, ho, rfl, rfl⟩

theorem mem_items_clean (customers : List Customer) (orders : List Order)
    (items : List Item) (i : Item)
    (h : i ∈ (clean_data customers orders items).2.2) :
    i ∈ items ∧ i.payment_status = "paid" ∧ 0 ≤ i.unit_price := by
  have h1 := List.mem_filter.mp h
  have h2 := List.mem_filter.mp h1.1
  exact ⟨h2.1, by simpa using h2.2, by simpa using h1.2⟩

theorem validOrders_subset_cleanIds (data : List OrderRec)
    (customers : List Customer) (x : String)
    (hx : x ∈ (orderRevenue1 (pipelineFull data customers)).map (fun o => o.order_id)) :
    x ∈ ((clean_data customers (make_orders data) (make_items data)).2.1).map
      (fun o => o.order_id) := by
  obtain ⟨o1, ho1, rfl⟩ := List.mem_map.mp hx
  have hkey := (mem_orderRevenue1 _ o1 ho1).1
  rw [mem_uniqueKeys] at hkey
  obtain ⟨e, he, heid⟩ := List.mem_map.mp hkey
  obtain ⟨i, hi, c, _, _, rfl⟩ := mem_itemsFull _ _ e he
  obtain ⟨hmem, hpaid, _⟩ := mem_items_clean customers (make_orders data) (make_items data) i hi
  obtain ⟨orec, horec, hid, hpay⟩ := mem_make_items data i hmem
  have hord : (⟨orec.order_id, orec.customer_id, orec.channel, orec.created_at,
      orec.payment_status⟩ : Order) ∈ filterPaidOrders (make_orders data) := by
    refine List.mem_filter.mpr ⟨?_, ?_⟩
    · exact List.mem_map.mpr ⟨orec, horec, rfl⟩
    · simp [hpay ▸ hpaid]
  have hdedup := (mem_map_firstByKey (fun o => o.order_id) []
    (filterPaidOrders (make_orders data)) orec.order_id).mpr
    ⟨List.mem_map_of_mem _ hord, by simp⟩
  have : (enrichItem i c.city).order_id = i.order_id := rfl
  rw [← heid, this, hid]
  exact hdedup

theorem pipeline_snd_eq (data : List OrderRec) (customers : List Customer)
    (refunds : List Refund) :
    (pipeline data customers refunds).2 =
      withDateAndCount (attachRefunds (orderRevenue1 (pipelineFull data customers))
        (refundsAgg refunds (uniqueKeys ((orderRevenue1 (pipelineFull data customers)).map
          (fun x => x.order_id)))))
        (pipelineFull data customers) := rfl

/-! ### Claim theorems -/

/-- C2: `splitItemsByPrice` partitions the paid items: an item is in the
rejected partition exactly when its unit_price is strictly negative (zero
is valid), an item is in the valid partition exactly when its unit_price
is non-negative, the two partitions are disjoint, and together they are a
permutation of the paid input (no overlap, no loss); the criterion reads
only `unit_price`, never `qty`. -/
theorem splitItemsByPrice_partition (its : List Item) :
    ((splitItemsByPrice its).1 ++ (splitItemsByPrice its).2).Perm its ∧
    ∀ i : Item,
      (i ∈ (splitItemsByPrice its).2 ↔ i ∈ its ∧ i.unit_price < 0) ∧
      (i ∈ (splitItemsByPrice its).1 ↔ i ∈ its ∧ 0 ≤ i.unit_price) ∧
      ¬(i ∈ (splitItemsByPrice its).1 ∧ i ∈ (splitItemsByPrice its).2) := by
  constructor
  · have hneg : (its.filter (fun i => i.unit_price < 0)) =
        its.filter (fun i => !decide (0 ≤ i.unit_price)) := by
      refine List.filter_congr (fun i _ => ?_)
      by_cases h : 0 ≤ i.unit_price
      · simp [h, not_lt.mpr h]
      · simp [h, not_le.mp h]
    simpa [splitItemsByPrice, hneg] using
      List.filter_append_perm (fun i => decide (0 ≤ i.unit_price)) its
  · intro i
    refine ⟨?_, ?_, ?_⟩
    · simp [splitItemsByPrice, List.mem_filter]
    · simp [splitItemsByPrice, List.mem_filter]
    · rintro ⟨h1, h2⟩
      have hv := (List.mem_filter.mp h1).2
      have hr := (List.mem_filter.mp h2).2
      simp only [decide_eq_true_eq] at hv hr
      exact absurd hv (not_le.mpr hr)

/-- C8: `dedupOrders` keeps the first occurrence of each order_id in input
order (first-wins, order-preserving sublist), its output has pairwise
distinct order_ids, it is the identity on any input whose order_ids are
already pairwise distinct, and it is idempotent. -/
theorem dedupOrders_spec (l : List Order) :
    ((l.map (fun o => o.order_id)).Nodup → dedupOrders l = l) ∧
    ((dedupOrders l).map (fun o => o.order_id)).Nodup ∧
    (dedupOrders l).Sublist l ∧
    (∀ oid : String, (dedupOrders l).filter (fun o => o.order_id = oid) =
      (l.filter (fun o => o.order_id = oid)).take 1) ∧
    dedupOrders (dedupOrders l) = dedupOrders l := by
  refine ⟨?_, ?_, ?_, ?_, ?_⟩
  · intro h
    exact firstByKey_eq_self _ [] l h (by simp)
  · exact nodup_map_firstByKey _ [] l
  · exact firstByKey_sublist _ [] l
  · intro oid
    simpa [dedupOrders] using filter_firstByKey (fun o => o.order_id) [] l oid
  · exact firstByKey_eq_self _ [] (dedupOrders l)
      (nodup_map_firstByKey _ [] l) (by simp)

/-- Witness for C8: on a two-order list with distinct ids `dedupOrders` is
the identity, concluded by the theorem with its hypothesis discharged. -/
theorem dedupOrders_spec_witness :
    dedupOrders [(⟨"O1", "C1", "web", "2024-01-15T10:00:00", "paid"⟩ : Order),
      ⟨"O2", "C1", "web", "2024-01-15T11:00:00", "paid"⟩] =
    [(⟨"O1", "C1", "web", "2024-01-15T10:00:00", "paid"⟩ : Order),
      ⟨"O2", "C1", "web", "2024-01-15T11:00:00", "paid"⟩] :=
  (dedupOrders_spec _).1 (by decide)

/-- C10: cleaning is a pure filter: each of the three collections returned
by `clean_data` is a sublist of the corresponding input, so every returned
row is an unmodified input row and retained rows keep their input order. -/
theorem clean_data_pure_filter (customers : List Customer) (orders : List Order)
    (items : List Item) :
    ((clean_data customers orders items).1).Sublist customers ∧
    ((clean_data customers orders items).2.1).Sublist orders ∧
    ((clean_data customers orders items).2.2).Sublist items := by
  refine ⟨List.filter_sublist _, ?_, ?_⟩
  · exact (firstByKey_sublist _ [] _).trans (List.filter_sublist _)
  · exact (List.filter_sublist _).trans (List.filter_sublist _)

/-- Sample active customer used by concrete witnesses. -/
def wCustomer : Customer := ⟨"C1", "Paris", true⟩

/-- Sample cleaned item used by concrete witnesses. -/
def wItem : Item := ⟨2, 10, "O1", "C1", "web", "2024-01-15T10:00:00", "paid"⟩

/-- The order-revenue row the sample data produces. -/
def wRevenue : OrderRevenue :=
  ⟨"O1", 20, "C1", "web", "Paris", "2024-01-15T10:00:00", 0, 20⟩

/-- C1: every row of the order-level revenue output has
`gross_revenue = Σ line_total` over the enriched items of its order,
`net_revenue = gross_revenue + refunds_amount` exactly, and every enriched
item carries `line_total = qty * unit_price`. -/
theorem revenue_conservation (items_clean : List Item) (customers : List Customer)
    (refunds : List Refund) (o : OrderRevenue)
    (ho : o ∈ (enrich_and_calculate items_clean customers refunds).2) :
    o.gross_revenue = (((enrich_and_calculate items_clean customers refunds).1.filter
      (fun e => e.order_id = o.order_id)).map (fun e => e.line_total)).sum ∧
    o.net_revenue = o.gross_revenue + o.refunds_amount ∧
    ∀ e ∈ (enrich_and_calculate items_clean customers refunds).1,
      e.line_total = e.qty * e.unit_price := by
  have hfull : (enrich_and_calculate items_clean customers refunds).1 =
      itemsFull items_clean customers := rfl
  obtain ⟨o1, ho1, hid, _, hgross, _, hnet⟩ :=
    mem_attachRefunds _ _ o ho
  have hg := (mem_orderRevenue1 _ o1 ho1).2
  refine ⟨?_, hnet, ?_⟩
  · rw [hfull, hgross, hid, hg]
  · intro e he
    exact line_total_itemsFull _ _ e (hfull ▸ he)

/-- Witness for C1: on the sample data the output row `⟨O1, 20, ..., 0, 20⟩`
satisfies the conservation equations. -/
theorem revenue_conservation_witness :
    wRevenue ∈ (enrich_and_calculate [wItem] [wCustomer] []).2 ∧
    (wRevenue.gross_revenue =
      (((enrich_and_calculate [wItem] [wCustomer] []).1.filter
        (fun e => e.order_id = wRevenue.order_id)).map (fun e => e.line_total)).sum ∧
     wRevenue.net_revenue = wRevenue.gross_revenue + wRevenue.refunds_amount ∧
     ∀ e ∈ (enrich_and_calculate [wItem] [wCustomer] []).1,
       e.line_total = e.qty * e.unit_price) := by
  have hmem : wRevenue ∈ (enrich_and_calculate [wItem] [wCustomer] []).2 := by
    simp only [enrich_and_calculate, itemsFull, List.flatMap, List.map, List.filter,
      enrichItem, wItem, wCustomer, wRevenue, orderRevenue1, attachRefunds, refundsAgg,
      uniqueKeys, firstByKey, firstStr, List.find?]
    norm_num
  exact ⟨hmem, revenue_conservation [wItem] [wCustomer] [] wRevenue hmem⟩

/-- C4: every daily-summary row has `gross_revenue_eur = Σ gross_revenue`
over the order-revenue rows of its (date, city, channel) group,
`orders_count` equal to the number of rows in that group, and
`unique_customers ≤ orders_count`. -/
theorem aggregate_conservation (rev : List OrderRevenueFull) (s : DailySummary)
    (hs : s ∈ dailySummary rev) :
    s.gross_revenue_eur = ((rev.filter (fun o => (o.date, o.city, o.channel) =
      (s.date, s.city, s.channel))).map (fun o => o.gross_revenue)).sum ∧
    s.orders_count = (rev.filter (fun o => (o.date, o.city, o.channel) =
      (s.date, s.city, s.channel))).length ∧
    s.unique_customers ≤ s.orders_count := by
  simp only [dailySummary, List.mem_map] at hs
  obtain ⟨k, hk, rfl⟩ := hs
  refine ⟨rfl, rfl, ?_⟩
  have h := length_uniqueKeys_le
    ((rev.filter (fun o => (o.date, o.city, o.channel) = k)).map
      (fun o => o.customer_id))
  rw [List.length_map] at h
  exact h

/-- The order-revenue row of the sample data after `aggregate_daily`. -/
def wRevFull : OrderRevenueFull :=
  ⟨"O1", 20, "C1", "web", "Paris", "2024-01-15T10:00:00", 0, 20, "2024-01-15", some 2⟩

/-- The daily-summary row of the sample data. -/
def wSummary : DailySummary := ⟨"2024-01-15", "Paris", "web", 1, 1, 2, 20, 0, 20⟩

/-- Witness for C4: the sample summary row satisfies the aggregate
conservation equations over its one-row group. -/
theorem aggregate_conservation_witness :
    wSummary ∈ dailySummary [wRevFull] ∧
    (wSummary.gross_revenue_eur =
      (([wRevFull].filter (fun o => (o.date, o.city, o.channel) =
        (wSummary.date, wSummary.city, wSummary.channel))).map
        (fun o => o.gross_revenue)).sum ∧
     wSummary.orders_count = ([wRevFull].filter (fun o => (o.date, o.city, o.channel) =
       (wSummary.date, wSummary.city, wSummary.channel))).length ∧
     wSummary.unique_customers ≤ wSummary.orders_count) := by
  have hmem : wSummary ∈ dailySummary [wRevFull] := by
    simp only [dailySummary, uniqueKeys, firstByKey, List.map, List.filter, firstStr,
      wSummary, wRevFull, List.mem_singleton]
    norm_num
  exact ⟨hmem, aggregate_conservation [wRevFull] wSummary hmem⟩

/-- C6: an output order-revenue row with no matching refund record has
`refunds_amount = 0` (the order is kept, absence is not an error) and
therefore `net_revenue = gross_revenue`. -/
theorem refunds_default_zero (items_clean : List Item) (customers : List Customer)
    (refunds : List Refund) (o : OrderRevenue)
    (ho : o ∈ (enrich_and_calculate items_clean customers refunds).2)
    (hno : ∀ r ∈ refunds, r.order_id ≠ o.order_id) :
    o.refunds_amount = 0 ∧ o.net_revenue = o.gross_revenue := by
  obtain ⟨o1, ho1, hid, _, _, hra, hnet⟩ := mem_attachRefunds _ _ o ho
  have hfind : (refundsAgg refunds
      (uniqueKeys ((orderRevenue1 (itemsFull items_clean customers)).map
        (fun x => x.order_id)))).find? (fun x => x.order_id = o1.order_id) = none := by
    rw [List.find?_eq_none]
    intro x hx
    obtain ⟨r, hr, hrid⟩ := mem_refundsAgg _ _ x hx
    simp only [decide_eq_true_eq]
    intro hxid
    exact hno r hr (by rw [hrid, hxid, ← hid])
  have h0 : o.refunds_amount = 0 := by rw [hra, hfind]; rfl
  exact ⟨h0, by rw [hnet, h0, add_zero]⟩

/-- Witness for C6: with one refund for an unrelated order `O9`, the sample
row gets `refunds_amount = 0` and `net_revenue = gross_revenue`. -/
theorem refunds_default_zero_witness :
    wRevenue ∈ (enrich_and_calculate [wItem] [wCustomer] [⟨"O9", -5⟩]).2 ∧
    (∀ r ∈ [(⟨"O9", -5⟩ : Refund)], r.order_id ≠ wRevenue.order_id) ∧
    (wRevenue.refunds_amount = 0 ∧ wRevenue.net_revenue = wRevenue.gross_revenue) := by
  have hmem : wRevenue ∈ (enrich_and_calculate [wItem] [wCustomer] [⟨"O9", -5⟩]).2 := by
    simp only [enrich_and_calculate, itemsFull, List.flatMap, List.map, List.filter,
      enrichItem, wItem, wCustomer, wRevenue, orderRevenue1, attachRefunds, refundsAgg,
      uniqueKeys, firstByKey, firstStr, List.find?]
    norm_num
  have hno : ∀ r ∈ [(⟨"O9", -5⟩ : Refund)], r.order_id ≠ wRevenue.order_id := by decide
  exact ⟨hmem, hno,
    refunds_default_zero [wItem] [wCustomer] [⟨"O9", -5⟩] wRevenue hmem hno⟩

/-- C9: every order-revenue row of the pipeline output carries a present
(non-null) `items_sold`: its `order_id` stems from at least one enriched
item, so the left join with the per-order item counts always matches. -/
theorem items_sold_always_present (data : List OrderRec) (customers : List Customer)
    (refunds : List Refund) (o : OrderRevenueFull)
    (ho : o ∈ (pipeline data customers refunds).2) : o.items_sold.isSome := by
  rw [pipeline_snd_eq] at ho
  obtain ⟨o2, ho2, _, _, hsold⟩ := mem_withDateAndCount _ _ o ho
  obtain ⟨o1, ho1, hid1, _, _, _⟩ := mem_attachRefunds _ _ o2 ho2
  have hkey := (mem_orderRevenue1 _ o1 ho1).1
  have hx : (⟨o1.order_id, (((pipelineFull data customers).filter
      (fun e => e.order_id = o1.order_id)).map (fun e => e.qty)).sum⟩ : ItemsCount) ∈
      itemsCount (pipelineFull data customers) :=
    List.mem_map.mpr ⟨o1.order_id, hkey, rfl⟩
  rw [hsold, hid1]
  cases hfind : (itemsCount (pipelineFull data customers)).find?
      (fun x => x.order_id = o1.order_id) with
  | some _ => rfl
  | none =>
    have hall := List.find?_eq_none.mp hfind _ hx
    simp at hall

/-- Sample raw order record used by pipeline-level witnesses. -/
def wOrderRec : OrderRec := ⟨"O1", "C1", "web", "2024-01-15T10:00:00", "paid", [⟨2, 10⟩]⟩

/-- Witness for C9: the sample pipeline output row has `items_sold = some 2`,
in particular a present value. -/
theorem items_sold_always_present_witness :
    wRevFull ∈ (pipeline [wOrderRec] [wCustomer] []).2 ∧
    wRevFull.items_sold.isSome := by
  have hmem : wRevFull ∈ (pipeline [wOrderRec] [wCustomer] []).2 := by
    simp only [pipeline, clean_data, enrich_and_calculate, aggregate_daily,
      make_orders, make_items, filterActiveCustomers, filterPaidOrders,
      filterPaidItems, dedupOrders, splitItemsByPrice, itemsFull, List.flatMap,
      List.map, List.filter, enrichItem, wOrderRec, wCustomer, wRevFull,
      orderRevenue1, attachRefunds, refundsAgg, uniqueKeys, firstByKey, firstStr,
      List.find?, withDateAndCount, itemsCount, dailySummary, dateOf]
    norm_num
    decide
  exact ⟨hmem, items_sold_always_present [wOrderRec] [wCustomer] [] wRevFull hmem⟩

/-- C7: a surviving valid item whose `customer_id` matches no cleaned
(active) customer is dropped at the customer join: no enriched item row
and no order-revenue row carries that `customer_id`, the item is not in
the rejected-items output, and if every surviving item of its order
carries that unmatched `customer_id` then the order is absent from the
order-revenue output (and hence contributes to no daily-summary row). -/
theorem inactive_customer_silent_drop (data : List OrderRec)
    (customers : List Customer) (refunds : List Refund) (i : Item)
    (hi : i ∈ (clean_data customers (make_orders data) (make_items data)).2.2)
    (hno : ∀ c ∈ (clean_data customers (make_orders data) (make_items data)).1,
      c.customer_id ≠ i.customer_id) :
    (∀ e ∈ pipelineFull data customers, e.customer_id ≠ i.customer_id) ∧
    (∀ o ∈ (pipeline data customers refunds).2, o.customer_id ≠ i.customer_id) ∧
    i ∉ rejectedItems (make_items data) ∧
    ((∀ j ∈ (clean_data customers (make_orders data) (make_items data)).2.2,
        j.order_id = i.order_id → j.customer_id = i.customer_id) →
      ∀ o ∈ (pipeline data customers refunds).2, o.order_id ≠ i.order_id) := by
  have hfull : ∀ e ∈ pipelineFull data customers, e.customer_id ≠ i.customer_id := by
    intro e he
    obtain ⟨j, _, c, hc, hcid, rfl⟩ := mem_itemsFull _ _ e he
    have : (enrichItem j c.city).customer_id = j.customer_id := rfl
    rw [this, ← hcid]
    exact hno c hc
  refine ⟨hfull, ?_, ?_, ?_⟩
  · intro o ho
    rw [pipeline_snd_eq] at ho
    obtain ⟨o2, ho2, _, hcid2, _⟩ := mem_withDateAndCount _ _ o ho
    obtain ⟨o1, ho1, _, hcid1, _, _, _⟩ := mem_attachRefunds _ _ o2 ho2
    obtain ⟨e, he, _, hecid⟩ := customer_mem_orderRevenue1 _ o1 ho1
    rw [hcid2, hcid1, ← hecid]
    exact hfull e he
  · intro hrej
    have h1 := (List.mem_filter.mp hi).2
    have h2 := (List.mem_filter.mp hrej).2
    simp only [decide_eq_true_eq] at h1 h2
    exact absurd h1 (not_le.mpr h2)
  · intro hall o ho
    rw [pipeline_snd_eq] at ho
    obtain ⟨o2, ho2, hid2, _, _⟩ := mem_withDateAndCount _ _ o ho
    obtain ⟨o1, ho1, hid1, _, _, _, _⟩ := mem_attachRefunds _ _ o2 ho2
    have hkey := (mem_orderRevenue1 _ o1 ho1).1
    rw [mem_uniqueKeys] at hkey
    intro hoid
    obtain ⟨e, he, heid⟩ := List.mem_map.mp hkey
    obtain ⟨j, hj, c, hc, hcid, rfl⟩ := mem_itemsFull _ _ e he
    have hjid : j.order_id = i.order_id := by
      have : (enrichItem j c.city).order_id = j.order_id := rfl
      rw [this] at heid
      rw [heid, ← hid1, ← hid2, ← hoid]
    have hjcid := hall j hj hjid
    exact hno c hc (hcid.trans hjcid)

/-- Inactive sample customer for the C7 witness. -/
def wInactive : Customer := ⟨"C2", "Lyon", false⟩

/-- Paid order of the inactive customer. -/
def wOrder2 : OrderRec := ⟨"O2", "C2", "web", "2024-01-15T10:00:00", "paid", [⟨1, 5⟩]⟩

/-- The surviving valid item of the inactive customer's order. -/
def wItem2 : Item := ⟨1, 5, "O2", "C2", "web", "2024-01-15T10:00:00", "paid"⟩

/-- Witness for C7: customer C2 is inactive, its item survives cleaning,
and no order-revenue row of the pipeline carries C2. -/
theorem inactive_customer_silent_drop_witness :
    wItem2 ∈ (clean_data [wInactive] (make_orders [wOrder2]) (make_items [wOrder2])).2.2 ∧
    (∀ c ∈ (clean_data [wInactive] (make_orders [wOrder2]) (make_items [wOrder2])).1,
      c.customer_id ≠ wItem2.customer_id) ∧
    (∀ o ∈ (pipeline [wOrder2] [wInactive] []).2,
      o.customer_id ≠ wItem2.customer_id) := by
  have hi : wItem2 ∈ (clean_data [wInactive] (make_orders [wOrder2])
      (make_items [wOrder2])).2.2 := by
    simp only [clean_data, splitItemsByPrice, filterPaidItems, make_items,
      List.flatMap, List.map, List.filter, wOrder2, wItem2]
    norm_num
  have hno : ∀ c ∈ (clean_data [wInactive] (make_orders [wOrder2])
      (make_items [wOrder2])).1, c.customer_id ≠ wItem2.customer_id := by decide
  exact ⟨hi, hno,
    (inactive_customer_silent_drop [wOrder2] [wInactive] [] wItem2 hi hno).2.1⟩

/-- First occurrence of the duplicated order O1. -/
def dupOrderA : OrderRec := ⟨"O1", "C1", "web", "2024-01-15T10:00:00", "paid", [⟨1, 10⟩]⟩

/-- Second (duplicate) occurrence of O1, dropped by `dedupOrders`, carrying
one item with line total 7. -/
def dupOrderB : OrderRec := ⟨"O1", "C1", "web", "2024-01-15T11:00:00", "paid", [⟨1, 7⟩]⟩

/-- Counterexample to C3 as stated: on an input whose order file carries two
occurrences of order O1, `dedupOrders` keeps only the first occurrence, yet
the revenue output for O1 is 17 = 10 + 7: the item of the dropped duplicate
occurrence (line total 7) still contributes, because the enrichment stage
never joins items to the deduplicated Order set. -/
theorem dedup_join_counterexample :
    (dedupOrders (filterPaidOrders (make_orders [dupOrderA, dupOrderB]))).map
      (fun o => o.order_id) = ["O1"] ∧
    (make_orders [dupOrderA, dupOrderB]).length = 2 ∧
    ((pipeline [dupOrderA, dupOrderB] [wCustomer] []).2.map
      (fun o => (o.order_id, o.gross_revenue))) = [("O1", 17)] ∧
    (17 : Rat) ≠ 10 := by
  refine ⟨by decide, by decide, ?_, by norm_num⟩
  simp only [pipeline, clean_data, enrich_and_calculate, aggregate_daily,
    make_orders, make_items, filterActiveCustomers, filterPaidOrders,
    filterPaidItems, dedupOrders, splitItemsByPrice, itemsFull, List.flatMap,
    List.map, List.filter, enrichItem, dupOrderA, dupOrderB, wCustomer,
    orderRevenue1, attachRefunds, refundsAgg, uniqueKeys, firstByKey, firstStr,
    List.find?, withDateAndCount, itemsCount, dailySummary, dateOf]
  norm_num

/-- C3 amended: every enriched item row arises from pairing a surviving
cleaned item with an active customer that matches it on `customer_id`
(exactly one such customer when the cleaned customer ids are distinct);
the deduplicated Order set is never consulted by the join, so items
carrying the order_id of a dropped duplicate occurrence still contribute,
and items failing the customer join are silently dropped. -/
theorem enrichment_join_amended (customers : List Customer) (items_clean : List Item)
    (e : EnrichedItem)
    (he : e ∈ itemsFull items_clean (filterActiveCustomers customers)) :
    (∃ i ∈ items_clean, ∃ c ∈ filterActiveCustomers customers,
      c.is_active = true ∧ c.customer_id = i.customer_id ∧ e = enrichItem i c.city) ∧
    (((filterActiveCustomers customers).map (fun c => c.customer_id)).Nodup →
      ∃! c, c ∈ filterActiveCustomers customers ∧ c.customer_id = e.customer_id) := by
  obtain ⟨i, hi, c, hc, hcid, rfl⟩ := mem_itemsFull _ _ e he
  have hact : c.is_active = true := by
    have h := (List.mem_filter.mp hc).2
    simpa using h
  refine ⟨⟨i, hi, c, hc, hact, hcid, rfl⟩, ?_⟩
  intro hnodup
  refine ⟨c, ⟨hc, hcid⟩, ?_⟩
  rintro c' ⟨hc', hcid'⟩
  have heq : c'.customer_id = c.customer_id := by
    have h1 : (enrichItem i c.city).customer_id = i.customer_id := rfl
    rw [h1] at hcid'
    rw [hcid', hcid]
  exact List.inj_on_of_nodup_map hnodup hc' hc heq

/-- Witness for C3's amended claim: the sample enriched item row arises
from `wItem` paired with the unique active customer C1. -/
theorem enrichment_join_amended_witness :
    enrichItem wItem "Paris" ∈ itemsFull [wItem] (filterActiveCustomers [wCustomer]) ∧
    (∃ i ∈ [wItem], ∃ c ∈ filterActiveCustomers [wCustomer],
      c.is_active = true ∧ c.customer_id = i.customer_id ∧
      enrichItem wItem "Paris" = enrichItem i c.city) := by
  have he : enrichItem wItem "Paris" ∈
      itemsFull [wItem] (filterActiveCustomers [wCustomer]) := by
    simp [itemsFull, filterActiveCustomers, wItem, wCustomer, List.filter]
  exact ⟨he, (enrichment_join_amended [wCustomer] [wItem] _ he).1⟩

/-- Unfolded form of the composed pipeline, for rewriting. -/
theorem pipeline_eq (data : List OrderRec) (customers : List Customer)
    (refunds : List Refund) :
    pipeline data customers refunds =
      aggregate_daily (attachRefunds (orderRevenue1 (pipelineFull data customers))
        (refundsAgg refunds (uniqueKeys ((orderRevenue1 (pipelineFull data customers)).map
          (fun x => x.order_id)))))
        (pipelineFull data customers) := rfl

/-- C5: a refund whose order_id is absent from the day's cleaned order set
leaves every pipeline output unchanged: removing that refund record from
the refund ledger yields the identical daily-summary and order-revenue
outputs. -/
theorem refund_scoping (data : List OrderRec) (customers : List Customer)
    (pre post : List Refund) (r : Refund)
    (hr : r.order_id ∉ ((clean_data customers (make_orders data)
      (make_items data)).2.1).map (fun o => o.order_id)) :
    pipeline data customers (pre ++ r :: post) =
      pipeline data customers (pre ++ post) := by
  have hnv : r.order_id ∉ uniqueKeys ((orderRevenue1 (pipelineFull data customers)).map
      (fun o => o.order_id)) := by
    intro hmem
    rw [mem_uniqueKeys] at hmem
    exact hr (validOrders_subset_cleanIds data customers r.order_id hmem)
  have hragg : refundsAgg (pre ++ r :: post)
        (uniqueKeys ((orderRevenue1 (pipelineFull data customers)).map
          (fun o => o.order_id))) =
      refundsAgg (pre ++ post)
        (uniqueKeys ((orderRevenue1 (pipelineFull data customers)).map
          (fun o => o.order_id))) := by
    simp only [refundsAgg]
    have hfil : (pre ++ r :: post).filter (fun x => x.order_id ∈
          uniqueKeys ((orderRevenue1 (pipelineFull data customers)).map
            (fun o => o.order_id))) =
        (pre ++ post).filter (fun x => x.order_id ∈
          uniqueKeys ((orderRevenue1 (pipelineFull data customers)).map
            (fun o => o.order_id))) := by
      simp only [List.filter_append, List.filter_cons]
      simp [hnv]
    rw [hfil]
  rw [pipeline_eq, pipeline_eq, hragg]

/-- Witness for C5: a refund for the unknown order OZ changes nothing on
the sample pipeline. -/
theorem refund_scoping_witness :
    ((⟨"OZ", -3⟩ : Refund).order_id ∉
      ((clean_data [wCustomer] (make_orders [wOrderRec])
        (make_items [wOrderRec])).2.1).map (fun o => o.order_id)) ∧
    pipeline [wOrderRec] [wCustomer] ([] ++ (⟨"OZ", -3⟩ : Refund) :: []) =
      pipeline [wOrderRec] [wCustomer] ([] ++ []) :=
  ⟨by decide,
   refund_scoping [wOrderRec] [wCustomer] [] [] ⟨"OZ", -3⟩ (by decide)⟩

end FreshKart
